import Mathlib

/-!
# DNSimple provider adapter (package libdnsdnsimple, provider.go)

A shallow embedding of the four operations of `Provider` (GetRecords,
AppendRecords, SetRecords, DeleteRecords) and of `toDuration`.

* The DNSimple client built at the top of every operation is an external
  collaborator.  It is embedded as a stub `Client σ` whose calls thread an
  explicit state `σ`, so that a stub may answer the K-th call differently
  from the first.
* Every remote call an operation issues is appended, with its reply, to a
  trace; an operation yields a `Run`: its outcome, the trace and the final
  stub state.
* `os.Exit(1)` is an outcome of its own (`Outcome.exited`): the operation
  does not return to its caller.
* A Go slice is a `List`; the nil slice and the empty slice are both `[]`.
* `int` and `time.Duration` are 64-bit signed integers, embedded as `Int`
  with explicit wrap-around (`wrapInt64`) where the code multiplies.
-/

namespace Libdnsdnsimple

/-! ## Data model -/

/-- The two sentinel errors of the Go package strconv. -/
inductive NumErrKind where
  | ErrSyntax
  | ErrRange
deriving DecidableEq, Repr

/-- Go error values that occur in provider.go: the value built by fmt.Errorf,
the NumError of strconv, and an error handed back by the DNSimple client. -/
inductive Error where
  | errorf (msg : String)
  | numError (fn : String) (num : String) (kind : NumErrKind)
  | client (msg : String)
deriving DecidableEq, Repr

/-- The record of libdns, with the fields provider.go reads or writes.
TTL is a time.Duration: a count of nanoseconds. -/
structure Record where
  ID : String
  «Type» : String
  Name : String
  Value : String
  TTL : Int
deriving DecidableEq, Repr

/-- Modelled from the spec: the type declaration dnsimple.ZoneRecord is not part
of the sources; section 6 gives ProviderRecord as the request fields
(Type, Name, Content, TTL in seconds) plus a service-assigned integer ID. -/
structure ZoneRecord where
  ID : Int
  «Type» : String
  Name : String
  Content : String
  TTL : Int
deriving DecidableEq, Repr

/-- Modelled from the spec: the type declaration dnsimple.ZoneRecordRequest is
not part of the sources; section 6 gives ProviderRecordRequest with
Type, Name, Content and TTLSeconds. -/
structure ZoneRecordRequest where
  «Type» : String
  Name : String
  Content : String
  TTL : Int
deriving DecidableEq, Repr

/-- A remote call on the DNSimple client, with its arguments. -/
inductive Call where
  | Whoami
  | ListRecords (accountID zone : String)
  | CreateRecord (accountID zone : String) (req : ZoneRecordRequest)
  | CreateOrUpdateRecord (accountID zone : String) (req : ZoneRecordRequest)
  | DeleteRecord (accountID zone : String) (recordID : Int)
deriving DecidableEq, Repr

/-- What the client answered to a call. -/
inductive Reply where
  | account (r : Except Error Int)
  | records (r : Except Error (List ZoneRecord))
  | record (r : Except Error ZoneRecord)
  | done (r : Option Error)

/-- One entry of the trace: a remote call and its reply. -/
structure Event where
  call : Call
  reply : Reply

/-- Modelled from the spec: the DNSimple client (dnsimple.NewClient and its
Identity and Zones services) is not part of the sources; section 6 gives the
collaborator contract WhoAmI, ListZoneRecords, CreateZoneRecord,
CreateOrUpdateZoneRecord and DeleteZoneRecord.  Each call reads and updates the
stub state. -/
structure Client (σ : Type) where
  Whoami : σ → Except Error Int × σ
  ListRecords : String → String → σ → Except Error (List ZoneRecord) × σ
  CreateRecord : String → String → ZoneRecordRequest → σ → Except Error ZoneRecord × σ
  CreateOrUpdateRecord : String → String → ZoneRecordRequest → σ → Except Error ZoneRecord × σ
  DeleteRecord : String → String → Int → σ → Option Error × σ

/-- How an operation ends: it returns a slice and an error value (none is
Go nil), or the process is terminated by os.Exit after the Whoami error was
printed. -/
inductive Outcome where
  | returned (records : List Record) (err : Option Error)
  | exited (printed : Error) (code : Int)
deriving DecidableEq, Repr

/-- The observable result of running an operation against a stub. -/
structure Run (σ : Type) where
  outcome : Outcome
  trace : List Event
  final : σ

/-! ## Machine arithmetic -/

/-- Two's-complement wrap-around of a 64-bit signed integer. -/
def wrapInt64 (x : Int) : Int := (x + 2 ^ 63) % 2 ^ 64 - 2 ^ 63

/-- The range of int64. -/
def isInt64 (x : Int) : Prop := -(2 ^ 63) ≤ x ∧ x < 2 ^ 63

instance (x : Int) : Decidable (isInt64 x) := by unfold isInt64; infer_instance

/-- The constant time.Second, in nanoseconds. -/
def Second : Int := 1000000000

/-- The helper toDuration of provider.go, line 15:
time.Duration(ttl) * time.Second, an int64 multiplication. -/
def toDuration (ttl : Int) : Int := wrapInt64 (ttl * Second)

/-- Rounding of a rational to the nearest integer, ties to even. -/
def roundHalfEven (q : ℚ) : Int :=
  let f : Int := ⌊q⌋
  if q - f < 1 / 2 then f
  else if 1 / 2 < q - f then f + 1
  else if f % 2 = 0 then f else f + 1

/-- The binary exponent of the unit in the last place of the float64 nearest
to a non-zero rational: floor(log2 |q|) - 52, not below the subnormal
exponent -1074. -/
def ulpExp (q : ℚ) : Int :=
  let c : Int := (Nat.log2 q.num.natAbs : Int) - (Nat.log2 q.den : Int)
  let e : Int := if (2 : ℚ) ^ c ≤ |q| then c else c - 1
  max (e - 52) (-1074)

/-- Rounding of a rational to float64 (IEEE 754 binary64, round to nearest,
ties to even); overflow to infinity is left out, the values of
Duration.Seconds stay below 2^34. -/
def float64 (q : ℚ) : ℚ :=
  if q = 0 then 0 else (roundHalfEven (q / (2 : ℚ) ^ ulpExp q) : ℚ) * (2 : ℚ) ^ ulpExp q

/-- The method Duration.Seconds of the Go package time:
sec := d / Second; nsec := d % Second;
return float64(sec) + float64(nsec)/1e9. -/
def Seconds (d : Int) : ℚ :=
  let sec := Int.tdiv d Second
  let nsec := Int.tmod d Second
  float64 (float64 (sec : ℚ) + float64 (float64 (nsec : ℚ) / 1000000000))

/-- The Go conversion int(x) of a float64: truncation toward zero. -/
def intOfFloat (x : ℚ) : Int := if 0 ≤ x then ⌊x⌋ else ⌈x⌉

/-! ## Standard library: strconv -/

/-- The function strconv.FormatInt(i, 10). -/
def FormatInt (i : Int) : String := toString i

/-- The digit loop of strconv.ParseUint(s, 10, 64): a byte that is not a
decimal digit is a syntax error, an overflow of uint64 a range error. -/
def parseUintLoop : List Char → Nat → Except NumErrKind Nat
  | [], n => .ok n
  | ch :: rest, n =>
    if 48 ≤ ch.toNat ∧ ch.toNat ≤ 57 then
      if n ≥ (2 ^ 64 - 1) / 10 + 1 then .error .ErrRange
      else if n * 10 + (ch.toNat - 48) > 2 ^ 64 - 1 then .error .ErrRange
      else parseUintLoop rest (n * 10 + (ch.toNat - 48))
    else .error .ErrSyntax

/-- The function strconv.ParseInt(s, 10, 0) on the characters of s. -/
def parseIntChars (cs : List Char) : Except NumErrKind Int :=
  match cs with
  | [] => .error .ErrSyntax
  | ch :: rest =>
    let neg := ch = '-'
    let body := if ch = '+' ∨ ch = '-' then rest else cs
    match body with
    | [] => .error .ErrSyntax
    | _ :: _ =>
      match parseUintLoop body 0 with
      | .error k => .error k
      | .ok un =>
        if ¬ neg ∧ un ≥ 2 ^ 63 then .error .ErrRange
        else if neg ∧ un > 2 ^ 63 then .error .ErrRange
        else .ok (if neg then -(un : Int) else (un : Int))

/-- The function strconv.Atoi: the decimal integer a string denotes, or a
NumError naming Atoi and the string. -/
def Atoi (s : String) : Except Error Int :=
  match parseIntChars s.toList with
  | .error k => .error (.numError "Atoi" s k)
  | .ok n => .ok n

/-! ## The operations of Provider -/

/-- The error of the guard on the zone argument, shared by the four
operations. -/
def zoneEmptyError : Error := .errorf "zone parameter cannot be empty"

/-- Provider.GetRecords (provider.go, lines 33-68). -/
def GetRecords {σ : Type} (c : Client σ) (zone : String) (s : σ) : Run σ :=
  if zone = "" then
    ⟨.returned [] (some zoneEmptyError), [], s⟩
  else
    match c.Whoami s with
    | (.error err, s1) => ⟨.exited err 1, [⟨.Whoami, .account (.error err)⟩], s1⟩
    | (.ok id, s1) =>
      let accountID := FormatInt id
      match c.ListRecords accountID zone s1 with
      | (.error err, s2) =>
        ⟨.returned [] (some err),
          [⟨.Whoami, .account (.ok id)⟩, ⟨.ListRecords accountID zone, .records (.error err)⟩], s2⟩
      | (.ok data, s2) =>
        ⟨.returned
            (data.foldl (fun libdnsRecords record =>
              libdnsRecords ++ [{ ID := "", «Type» := record.«Type», Name := record.Name,
                                  Value := record.Content, TTL := toDuration record.TTL }]) [])
            none,
          [⟨.Whoami, .account (.ok id)⟩, ⟨.ListRecords accountID zone, .records (.ok data)⟩], s2⟩

/-- The loop of Provider.AppendRecords (lines 91-110): one CreateRecord call
per record, stopping at the first error with the records appended so far. -/
def appendLoop {σ : Type} (c : Client σ) (accountID zone : String) :
    List Record → List Record → List Event → σ → Run σ
  | [], appendedRecords, tr, s => ⟨.returned appendedRecords none, tr, s⟩
  | record :: rest, appendedRecords, tr, s =>
    let zoneRecordRequest : ZoneRecordRequest :=
      { «Type» := record.«Type», Name := record.Name, Content := record.Value,
        TTL := intOfFloat (Seconds record.TTL) }
    match c.CreateRecord accountID zone zoneRecordRequest s with
    | (.error err, s1) =>
      ⟨.returned appendedRecords (some err),
        tr ++ [⟨.CreateRecord accountID zone zoneRecordRequest, .record (.error err)⟩], s1⟩
    | (.ok data, s1) =>
      appendLoop c accountID zone rest
        (appendedRecords ++ [{ ID := "", «Type» := data.«Type», Name := data.Name,
                               Value := data.Content, TTL := toDuration data.TTL }])
        (tr ++ [⟨.CreateRecord accountID zone zoneRecordRequest, .record (.ok data)⟩]) s1

/-- Provider.AppendRecords (provider.go, lines 71-113). -/
def AppendRecords {σ : Type} (c : Client σ) (zone : String) (records : List Record) (s : σ) :
    Run σ :=
  if zone = "" then
    ⟨.returned [] (some zoneEmptyError), [], s⟩
  else
    match c.Whoami s with
    | (.error err, s1) => ⟨.exited err 1, [⟨.Whoami, .account (.error err)⟩], s1⟩
    | (.ok id, s1) =>
      appendLoop c (FormatInt id) zone records [] [⟨.Whoami, .account (.ok id)⟩] s1

/-- The loop of Provider.SetRecords (lines 137-156): one CreateOrUpdateRecord
call per record, stopping at the first error with the records updated so
far. -/
def setLoop {σ : Type} (c : Client σ) (accountID zone : String) :
    List Record → List Record → List Event → σ → Run σ
  | [], updatedRecords, tr, s => ⟨.returned updatedRecords none, tr, s⟩
  | record :: rest, updatedRecords, tr, s =>
    let zoneRecordRequest : ZoneRecordRequest :=
      { «Type» := record.«Type», Name := record.Name, Content := record.Value,
        TTL := intOfFloat (Seconds record.TTL) }
    match c.CreateOrUpdateRecord accountID zone zoneRecordRequest s with
    | (.error err, s1) =>
      ⟨.returned updatedRecords (some err),
        tr ++ [⟨.CreateOrUpdateRecord accountID zone zoneRecordRequest, .record (.error err)⟩], s1⟩
    | (.ok data, s1) =>
      setLoop c accountID zone rest
        (updatedRecords ++ [{ ID := "", «Type» := data.«Type», Name := data.Name,
                              Value := data.Content, TTL := toDuration data.TTL }])
        (tr ++ [⟨.CreateOrUpdateRecord accountID zone zoneRecordRequest, .record (.ok data)⟩]) s1

/-- Provider.SetRecords (provider.go, lines 117-159). -/
def SetRecords {σ : Type} (c : Client σ) (zone : String) (records : List Record) (s : σ) :
    Run σ :=
  if zone = "" then
    ⟨.returned [] (some zoneEmptyError), [], s⟩
  else
    match c.Whoami s with
    | (.error err, s1) => ⟨.exited err 1, [⟨.Whoami, .account (.error err)⟩], s1⟩
    | (.ok id, s1) =>
      setLoop c (FormatInt id) zone records [] [⟨.Whoami, .account (.ok id)⟩] s1

/-- The loop of Provider.DeleteRecords (lines 182-194): parse the ID, issue
the DeleteRecord call, append the input record; stop at the first error. -/
def deleteLoop {σ : Type} (c : Client σ) (accountID zone : String) :
    List Record → List Record → List Event → σ → Run σ
  | [], deletedRecords, tr, s => ⟨.returned deletedRecords none, tr, s⟩
  | record :: rest, deletedRecords, tr, s =>
    match Atoi record.ID with
    | .error err => ⟨.returned deletedRecords (some err), tr, s⟩
    | .ok zoneRecordID =>
      match c.DeleteRecord accountID zone zoneRecordID s with
      | (some err, s1) =>
        ⟨.returned deletedRecords (some err),
          tr ++ [⟨.DeleteRecord accountID zone zoneRecordID, .done (some err)⟩], s1⟩
      | (none, s1) =>
        deleteLoop c accountID zone rest (deletedRecords ++ [record])
          (tr ++ [⟨.DeleteRecord accountID zone zoneRecordID, .done none⟩]) s1

/-- Provider.DeleteRecords (provider.go, lines 162-197). -/
def DeleteRecords {σ : Type} (c : Client σ) (zone : String) (records : List Record) (s : σ) :
    Run σ :=
  if zone = "" then
    ⟨.returned [] (some zoneEmptyError), [], s⟩
  else
    match c.Whoami s with
    | (.error err, s1) => ⟨.exited err 1, [⟨.Whoami, .account (.error err)⟩], s1⟩
    | (.ok id, s1) =>
      deleteLoop c (FormatInt id) zone records [] [⟨.Whoami, .account (.ok id)⟩] s1

/-! ## Vocabulary of the statements -/

/-- The request AppendRecords and SetRecords build from an input record
(lines 92-97 and 138-143). -/
def requestOf (record : Record) : ZoneRecordRequest :=
  { «Type» := record.«Type», Name := record.Name, Content := record.Value,
    TTL := intOfFloat (Seconds record.TTL) }

/-- The record GetRecords, AppendRecords and SetRecords build from a record of
the service (lines 59-64, 103-108 and 149-154); no ID is written. -/
def recordOf (data : ZoneRecord) : Record :=
  { ID := "", «Type» := data.«Type», Name := data.Name, Value := data.Content,
    TTL := toDuration data.TTL }

/-- The trace entry of a successful Whoami call. -/
def whoamiEvent (id : Int) : Event := ⟨.Whoami, .account (.ok id)⟩

/-- The trace entry of a CreateRecord call for an input record. -/
def createEvent (accountID zone : String) (record : Record) (reply : Except Error ZoneRecord) :
    Event :=
  ⟨.CreateRecord accountID zone (requestOf record), .record reply⟩

/-- The trace entry of a DeleteRecord call. -/
def deleteEvent (accountID zone : String) (reply : Option Error) (recordID : Int) : Event :=
  ⟨.DeleteRecord accountID zone recordID, .done reply⟩

/-- Relabelling of a trace entry: a CreateRecord call becomes the
CreateOrUpdateRecord call with the same arguments and reply. -/
def asCreateOrUpdate (ev : Event) : Event :=
  match ev.call with
  | .CreateRecord accountID zone req => ⟨.CreateOrUpdateRecord accountID zone req, ev.reply⟩
  | _ => ev

/-- Whether a call is the plain create call. -/
def Call.isCreate : Call → Bool
  | .CreateRecord _ _ _ => true
  | _ => false

/-- Whether a call is a delete call. -/
def Call.isDelete : Call → Bool
  | .DeleteRecord _ _ _ => true
  | _ => false


/-! ## Concrete stubs and inputs -/

/-- A stub that resolves the account 1010, lists one record, echoes every
request under the record ID 42 and deletes whatever it is asked to; its state
counts the calls. -/
def echoClient : Client Nat where
  Whoami s := (.ok 1010, s + 1)
  ListRecords _ _ s := (.ok [⟨7, "A", "www", "192.0.2.1", 3600⟩], s + 1)
  CreateRecord _ _ req s := (.ok ⟨42, req.«Type», req.Name, req.Content, req.TTL⟩, s + 1)
  CreateOrUpdateRecord _ _ req s :=
    (.ok ⟨42, req.«Type», req.Name, req.Content, req.TTL⟩, s + 1)
  DeleteRecord _ _ _ s := (none, s + 1)

/-- A stub whose identity resolution fails; its other calls behave as those of
echoClient. -/
def noIdentityClient : Client Nat where
  Whoami s := (.error (.client "authentication failed"), s + 1)
  ListRecords := echoClient.ListRecords
  CreateRecord := echoClient.CreateRecord
  CreateOrUpdateRecord := echoClient.CreateOrUpdateRecord
  DeleteRecord := echoClient.DeleteRecord

/-- The record of the round-trip property: TXT foo bar with a TTL of 300 s. -/
def txtRecord : Record :=
  { ID := "", «Type» := "TXT", Name := "foo", Value := "bar", TTL := 300000000000 }

/-- A record whose ID is not an integer string. -/
def abcRecord : Record :=
  { ID := "abc", «Type» := "A", Name := "www", Value := "192.0.2.1", TTL := 3600000000000 }

/-- A record whose ID is the integer string 7. -/
def sevenRecord : Record :=
  { ID := "7", «Type» := "A", Name := "www", Value := "192.0.2.1", TTL := 3600000000000 }

/-- The stub answering, from the state s, the CreateRecord calls for the given
records in order, every one successfully: the responses and the state after
the last call; none as soon as one call fails. -/
def stubCreates {σ : Type} (c : Client σ) (accountID zone : String) :
    List Record → σ → Option (List ZoneRecord × σ)
  | [], s => some ([], s)
  | record :: rest, s =>
    match c.CreateRecord accountID zone (requestOf record) s with
    | (.ok data, s1) =>
      match stubCreates c accountID zone rest s1 with
      | some (datas, s2) => some (data :: datas, s2)
      | none => none
    | (.error _, _) => none

/-- The IDs of the given records parsing and the stub answering, from the
state s, the DeleteRecord calls for them in order, every one successfully: the
parsed IDs and the state after the last call; none as soon as an ID does not
parse or a call fails. -/
def stubDeletes {σ : Type} (c : Client σ) (accountID zone : String) :
    List Record → σ → Option (List Int × σ)
  | [], s => some ([], s)
  | record :: rest, s =>
    match Atoi record.ID with
    | .error _ => none
    | .ok n =>
      match c.DeleteRecord accountID zone n s with
      | (none, s1) =>
        match stubDeletes c accountID zone rest s1 with
        | some (ids, s2) => some (n :: ids, s2)
        | none => none
      | (some _, _) => none

/-- A stub that lists two records, the second with a larger ID; its other
calls behave as those of echoClient. -/
def twoRecordClient : Client Nat where
  Whoami := echoClient.Whoami
  ListRecords _ _ s :=
    (.ok [⟨7, "A", "www", "192.0.2.1", 3600⟩, ⟨8, "TXT", "foo", "bar", 300⟩], s + 1)
  CreateRecord := echoClient.CreateRecord
  CreateOrUpdateRecord := echoClient.CreateOrUpdateRecord
  DeleteRecord := echoClient.DeleteRecord

/-- A stub that lists one record whose TTL, 9223372037 s, is more
nanoseconds than an int64 holds; its other calls behave as those of
echoClient. -/
def hugeTTLClient : Client Nat where
  Whoami := echoClient.Whoami
  ListRecords _ _ s := (.ok [⟨7, "A", "www", "192.0.2.1", 9223372037⟩], s + 1)
  CreateRecord := echoClient.CreateRecord
  CreateOrUpdateRecord := echoClient.CreateOrUpdateRecord
  DeleteRecord := echoClient.DeleteRecord

/-- A stub whose state counts the calls and whose third call fails when it is a
create, create-or-update or delete call: after Whoami, the first such call
succeeds and the second fails. -/
def flakyClient : Client Nat where
  Whoami s := (.ok 1010, s + 1)
  ListRecords := echoClient.ListRecords
  CreateRecord _ _ req s :=
    if s = 2 then (.error (.client "upstream failure"), s + 1)
    else (.ok ⟨42 + s, req.«Type», req.Name, req.Content, req.TTL⟩, s + 1)
  CreateOrUpdateRecord _ _ req s :=
    if s = 2 then (.error (.client "upstream failure"), s + 1)
    else (.ok ⟨42 + s, req.«Type», req.Name, req.Content, req.TTL⟩, s + 1)
  DeleteRecord _ _ _ s :=
    if s = 2 then (some (.client "upstream failure"), s + 1) else (none, s + 1)

/-- A record whose ID is the integer string 8. -/
def eightRecord : Record :=
  { ID := "8", «Type» := "TXT", Name := "foo", Value := "bar", TTL := 300000000000 }


/-! ## Auxiliary lemmas -/

theorem foldl_append_singleton {α β : Type} (f : α → β) (l : List α) (init : List β) :
    l.foldl (fun acc x => acc ++ [f x]) init = init ++ l.map f := by
  induction l generalizing init with
  | nil => simp
  | cons x xs ih => simp [ih]

theorem stubCreates_length {σ : Type} (c : Client σ) (accountID zone : String) :
    ∀ (records : List Record) (s s2 : σ) (datas : List ZoneRecord),
      stubCreates c accountID zone records s = some (datas, s2) →
      datas.length = records.length := by
  intro records
  induction records with
  | nil =>
    intro s s2 datas h
    simp [stubCreates] at h
    simp [h.1.symm]
  | cons r rest ih =>
    intro s s2 datas h
    rcases hc : c.CreateRecord accountID zone (requestOf r) s with ⟨res, s1⟩
    cases res with
    | error err => simp [stubCreates, hc] at h
    | ok data =>
      cases hr : stubCreates c accountID zone rest s1 with
      | none => simp [stubCreates, hc, hr] at h
      | some p =>
        obtain ⟨ds, s3⟩ := p
        simp [stubCreates, hc, hr] at h
        obtain ⟨h1, _⟩ := h
        subst h1
        simp [ih s1 s3 ds hr]

theorem appendLoop_run {σ : Type} (c : Client σ) (accountID zone : String)
    (rest : List Record) :
    ∀ (pre acc : List Record) (tr : List Event) (s s2 : σ) (datas : List ZoneRecord),
      stubCreates c accountID zone pre s = some (datas, s2) →
      appendLoop c accountID zone (pre ++ rest) acc tr s
        = appendLoop c accountID zone rest (acc ++ datas.map recordOf)
            (tr ++ List.zipWith (createEvent accountID zone) pre (datas.map Except.ok)) s2 := by
  intro pre
  induction pre with
  | nil =>
    intro acc tr s s2 datas h
    simp [stubCreates] at h
    obtain ⟨h1, h2⟩ := h
    subst h1 h2
    simp
  | cons r pre1 ih =>
    intro acc tr s s2 datas h
    rcases hc : c.CreateRecord accountID zone (requestOf r) s with ⟨res, s1⟩
    cases res with
    | error err => simp [stubCreates, hc] at h
    | ok data =>
      cases hr : stubCreates c accountID zone pre1 s1 with
      | none => simp [stubCreates, hc, hr] at h
      | some p =>
        obtain ⟨ds, s3⟩ := p
        simp [stubCreates, hc, hr] at h
        obtain ⟨h1, h2⟩ := h
        subst h1 h2
        have hstep : appendLoop c accountID zone (r :: pre1 ++ rest) acc tr s
            = appendLoop c accountID zone (pre1 ++ rest) (acc ++ [recordOf data])
                (tr ++ [createEvent accountID zone r (.ok data)]) s1 := by
          simp only [requestOf] at hc
          simp [appendLoop, hc, recordOf, createEvent, requestOf]
        rw [hstep, ih _ _ s1 s3 ds hr]
        simp

theorem deleteLoop_run {σ : Type} (c : Client σ) (accountID zone : String)
    (rest : List Record) :
    ∀ (pre acc : List Record) (tr : List Event) (s s2 : σ) (ids : List Int),
      stubDeletes c accountID zone pre s = some (ids, s2) →
      deleteLoop c accountID zone (pre ++ rest) acc tr s
        = deleteLoop c accountID zone rest (acc ++ pre)
            (tr ++ ids.map (deleteEvent accountID zone none)) s2 := by
  intro pre
  induction pre with
  | nil =>
    intro acc tr s s2 ids h
    simp [stubDeletes] at h
    obtain ⟨h1, h2⟩ := h
    subst h1 h2
    simp
  | cons r pre1 ih =>
    intro acc tr s s2 ids h
    cases hp : Atoi r.ID with
    | error err => simp [stubDeletes, hp] at h
    | ok n =>
      rcases hd : c.DeleteRecord accountID zone n s with ⟨res, s1⟩
      cases res with
      | some err => simp [stubDeletes, hp, hd] at h
      | none =>
        cases hr : stubDeletes c accountID zone pre1 s1 with
        | none => simp [stubDeletes, hp, hd, hr] at h
        | some p =>
          obtain ⟨ns, s3⟩ := p
          simp [stubDeletes, hp, hd, hr] at h
          obtain ⟨h1, h2⟩ := h
          subst h1 h2
          have hstep : deleteLoop c accountID zone (r :: pre1 ++ rest) acc tr s
              = deleteLoop c accountID zone (pre1 ++ rest) (acc ++ [r])
                  (tr ++ [deleteEvent accountID zone none n]) s1 := by
            simp [deleteLoop, hp, hd, deleteEvent]
          rw [hstep, ih _ _ s1 s3 ns hr]
          simp

theorem stubDeletes_none {σ : Type} (c : Client σ) (accountID zone : String) :
    ∀ (records : List Record) (s : σ), stubDeletes c accountID zone records s = none →
      ∃ (pre : List Record) (r : Record) (post : List Record) (ids : List Int) (s2 : σ),
        records = pre ++ r :: post
          ∧ stubDeletes c accountID zone pre s = some (ids, s2)
          ∧ ((∃ err, Atoi r.ID = .error err)
              ∨ ∃ (n : Int) (err : Error) (s3 : σ),
                  Atoi r.ID = .ok n ∧ c.DeleteRecord accountID zone n s2 = (some err, s3)) := by
  intro records
  induction records with
  | nil => intro s h; simp [stubDeletes] at h
  | cons r rest ih =>
    intro s h
    cases hp : Atoi r.ID with
    | error err =>
      exact ⟨[], r, rest, [], s, by simp, by simp [stubDeletes], Or.inl ⟨err, hp⟩⟩
    | ok n =>
      rcases hd : c.DeleteRecord accountID zone n s with ⟨res, s1⟩
      cases res with
      | some err =>
        exact ⟨[], r, rest, [], s, by simp, by simp [stubDeletes],
          Or.inr ⟨n, err, s1, hp, hd⟩⟩
      | none =>
        cases hr : stubDeletes c accountID zone rest s1 with
        | some p => simp [stubDeletes, hp, hd, hr] at h
        | none =>
          obtain ⟨pre, r1, post, ids, s2, e1, e2, e3⟩ := ih s1 hr
          exact ⟨r :: pre, r1, post, n :: ids, s2, by simp [e1],
            by simp [stubDeletes, hp, hd, e2], e3⟩

theorem deleteLoop_malformed {σ : Type} (c : Client σ) (accountID zone : String)
    (bad : Record) (post : List Record) (err : Error) (hbad : Atoi bad.ID = .error err) :
    ∀ (pre : List Record) (ids : List Int) (acc : List Record) (tr : List Event) (s : σ),
      pre.map (fun r => Atoi r.ID) = ids.map Except.ok →
      ∃ (e : Error) (k m : Nat), k ≤ m ∧ m ≤ ids.length
        ∧ (deleteLoop c accountID zone (pre ++ bad :: post) acc tr s).outcome
            = .returned (acc ++ pre.take k) (some e)
        ∧ (deleteLoop c accountID zone (pre ++ bad :: post) acc tr s).trace.map Event.call
            = tr.map Event.call
                ++ (ids.take m).map (fun n => Call.DeleteRecord accountID zone n) := by
  intro pre
  induction pre with
  | nil =>
    intro ids acc tr s hids
    exact ⟨err, 0, 0, le_refl 0, Nat.zero_le _, by simp [deleteLoop, hbad],
      by simp [deleteLoop, hbad]⟩
  | cons r pre1 ih =>
    intro ids acc tr s hids
    cases ids with
    | nil => simp at hids
    | cons n ids1 =>
      simp only [List.map_cons, List.cons.injEq] at hids
      obtain ⟨hp, hrest⟩ := hids
      rcases hd : c.DeleteRecord accountID zone n s with ⟨res, s1⟩
      cases res with
      | some e =>
        exact ⟨e, 0, 1, by omega, by simp, by simp [deleteLoop, hp, hd],
          by simp [deleteLoop, hp, hd]⟩
      | none =>
        obtain ⟨e, k, m, hkm, hm, h1, h2⟩ := ih ids1 (acc ++ [r])
          (tr ++ [deleteEvent accountID zone none n]) s1 hrest
        have hrun : deleteLoop c accountID zone (r :: pre1 ++ bad :: post) acc tr s
            = deleteLoop c accountID zone (pre1 ++ bad :: post) (acc ++ [r])
                (tr ++ [deleteEvent accountID zone none n]) s1 := by
          simp [deleteLoop, hp, hd, deleteEvent]
        refine ⟨e, k + 1, m + 1, by omega, by simp; omega, ?_, ?_⟩
        · rw [hrun, h1]; simp
        · rw [hrun, h2]; simp [deleteEvent]

theorem setLoop_eq_appendLoop {σ : Type} (c1 c2 : Client σ) (accountID zone : String)
    (hf : c2.CreateOrUpdateRecord = c1.CreateRecord) :
    ∀ (records acc : List Record) (tr : List Event) (s : σ),
      (setLoop c2 accountID zone records acc (tr.map asCreateOrUpdate) s).outcome
          = (appendLoop c1 accountID zone records acc tr s).outcome
        ∧ (setLoop c2 accountID zone records acc (tr.map asCreateOrUpdate) s).final
          = (appendLoop c1 accountID zone records acc tr s).final
        ∧ (setLoop c2 accountID zone records acc (tr.map asCreateOrUpdate) s).trace
          = (appendLoop c1 accountID zone records acc tr s).trace.map asCreateOrUpdate := by
  intro records
  induction records with
  | nil => intro acc tr s; simp [setLoop, appendLoop]
  | cons r rest ih =>
    intro acc tr s
    rcases h : c1.CreateRecord accountID zone (requestOf r) s with ⟨res, s1⟩
    simp only [requestOf] at h
    cases res with
    | error err => simp [setLoop, appendLoop, hf, h, asCreateOrUpdate]
    | ok data =>
      have := ih (acc ++ [recordOf data])
        (tr ++ [createEvent accountID zone r (.ok data)]) s1
      simp only [recordOf, createEvent, requestOf, List.map_append, List.map_cons, List.map_nil,
        asCreateOrUpdate] at this
      simp only [setLoop, appendLoop, hf, h]
      exact this

theorem setLoop_no_create {σ : Type} (c : Client σ) (accountID zone : String) :
    ∀ (records acc : List Record) (tr : List Event) (s : σ),
      (∀ ev ∈ tr, ev.call.isCreate = false) →
      ∀ ev ∈ (setLoop c accountID zone records acc tr s).trace, ev.call.isCreate = false := by
  intro records
  induction records with
  | nil => intro acc tr s h; simpa [setLoop] using h
  | cons r rest ih =>
    intro acc tr s htr
    rcases h : c.CreateOrUpdateRecord accountID zone (requestOf r) s with ⟨res, s1⟩
    simp only [requestOf] at h
    cases res with
    | error err =>
      simp only [setLoop, h]
      intro ev hev
      rcases List.mem_append.1 hev with h1 | h1
      · exact htr ev h1
      · simp at h1; subst h1; rfl
    | ok data =>
      simp only [setLoop, h]
      apply ih
      intro ev hev
      rcases List.mem_append.1 hev with h1 | h1
      · exact htr ev h1
      · simp at h1; subst h1; rfl

theorem roundHalfEven_intCast (m : Int) : roundHalfEven (m : ℚ) = m := by
  simp [roundHalfEven]

theorem ulpExp_intCast_nonpos (n : Int) (hn : n ≠ 0) (hb : n.natAbs < 2 ^ 53) :
    ulpExp (n : ℚ) ≤ 0 := by
  have hlog : Nat.log2 n.natAbs < 53 := (Nat.log2_lt (by simpa using hn)).2 hb
  unfold ulpExp
  simp only [Rat.num_intCast, Rat.den_intCast]
  have h1 : Nat.log2 1 = 0 := by
    have := (@Nat.log2_lt 1 1 (by decide)).2 (by decide)
    omega
  rw [h1]
  split_ifs <;> omega

theorem float64_intCast (n : Int) (hb : n.natAbs < 2 ^ 53) : float64 (n : ℚ) = n := by
  unfold float64
  by_cases hn : n = 0
  · simp [hn]
  · have hq : (n : ℚ) ≠ 0 := by exact_mod_cast hn
    rw [if_neg hq]
    have he := ulpExp_intCast_nonpos n hn hb
    obtain ⟨k, hk⟩ : ∃ k : ℕ, ulpExp (n : ℚ) = -(k : Int) := ⟨(-ulpExp (n : ℚ)).toNat, by omega⟩
    rw [hk]
    have h2 : (n : ℚ) / (2 : ℚ) ^ (-(k : Int)) = ((n * 2 ^ k : Int) : ℚ) := by
      rw [zpow_neg, zpow_natCast]
      push_cast
      field_simp
    rw [h2, roundHalfEven_intCast, zpow_neg, zpow_natCast]
    push_cast
    field_simp

theorem intOfFloat_intCast (n : Int) : intOfFloat (n : ℚ) = n := by
  simp [intOfFloat]

theorem intOfFloat_Seconds_whole (d : Int) (hd : isInt64 d) (hw : d % Second = 0) :
    intOfFloat (Seconds d) = d / Second := by
  have hdvd : Second ∣ d := Int.dvd_of_emod_eq_zero hw
  have hmod : Int.tmod d Second = 0 := by
    obtain ⟨k, rfl⟩ := hdvd
    simp [Int.mul_tmod_right]
  have hdiv : Int.tdiv d Second = d / Second := Int.tdiv_eq_ediv_of_dvd hdvd
  have hb : (d / Second).natAbs < 2 ^ 53 := by
    unfold isInt64 at hd
    unfold Second at *
    omega
  unfold Seconds
  simp only [hmod, hdiv]
  have h0 : float64 ((0 : Int) : ℚ) = 0 := by simp [float64]
  rw [h0]
  simp only [zero_div]
  have h1 : float64 (0 : ℚ) = 0 := by simp [float64]
  rw [h1, add_zero, float64_intCast _ hb, float64_intCast _ hb, intOfFloat_intCast]

theorem wrapInt64_of_isInt64 (x : Int) (h : isInt64 x) : wrapInt64 x = x := by
  unfold isInt64 at h
  unfold wrapInt64
  omega

theorem toDuration_Seconds_whole (d : Int) (hd : isInt64 d) (hw : d % Second = 0) :
    toDuration (intOfFloat (Seconds d)) = d := by
  rw [intOfFloat_Seconds_whole d hd hw]
  unfold toDuration
  have : d / Second * Second = d := Int.ediv_mul_cancel (Int.dvd_of_emod_eq_zero hw)
  rw [this, wrapInt64_of_isInt64 d hd]

theorem appendLoop_echo {σ : Type} (c : Client σ) (accountID zone : String)
    (hecho : ∀ (a z : String) (req : ZoneRecordRequest) (t : σ), ∃ (n : Int) (t1 : σ),
      c.CreateRecord a z req t = (.ok ⟨n, req.«Type», req.Name, req.Content, req.TTL⟩, t1)) :
    ∀ (records acc : List Record) (tr : List Event) (s : σ),
      (∀ r ∈ records, isInt64 r.TTL ∧ r.TTL % Second = 0) →
      (appendLoop c accountID zone records acc tr s).outcome
        = .returned (acc ++ records.map (fun r => { r with ID := "" })) none := by
  intro records
  induction records with
  | nil => intro acc tr s _; simp [appendLoop]
  | cons r rest ih =>
    intro acc tr s h
    obtain ⟨n, t1, hc⟩ := hecho accountID zone (requestOf r) s
    simp only [requestOf] at hc
    have hr := h r (List.mem_cons_self _ _)
    simp only [appendLoop, hc]
    rw [ih _ _ _ (fun x hx => h x (List.mem_cons_of_mem _ hx))]
    simp [toDuration_Seconds_whole r.TTL hr.1 hr.2]

/-! ## Claims -/

/-- C1: called with the empty zone, each of GetRecords, AppendRecords,
SetRecords and DeleteRecords returns the nil slice together with an error and
issues no remote call: the trace is empty and the stub state untouched, for
every stub, every state and every record list. -/
theorem empty_zone_no_remote_call {σ : Type} (c : Client σ) (records : List Record) (s : σ) :
    (GetRecords c "" s).outcome = .returned [] (some zoneEmptyError)
      ∧ (GetRecords c "" s).trace = [] ∧ (GetRecords c "" s).final = s
    ∧ (AppendRecords c "" records s).outcome = .returned [] (some zoneEmptyError)
      ∧ (AppendRecords c "" records s).trace = [] ∧ (AppendRecords c "" records s).final = s
    ∧ (SetRecords c "" records s).outcome = .returned [] (some zoneEmptyError)
      ∧ (SetRecords c "" records s).trace = [] ∧ (SetRecords c "" records s).final = s
    ∧ (DeleteRecords c "" records s).outcome = .returned [] (some zoneEmptyError)
      ∧ (DeleteRecords c "" records s).trace = [] ∧ (DeleteRecords c "" records s).final = s := by
  simp [GetRecords, AppendRecords, SetRecords, DeleteRecords]

/-- C2 as stated fails: against the stub hugeTTLClient, whose list response has
one entry with the TTL 9223372037 (seconds), GetRecords for the zone
example.com returns without error a record whose TTL is -9223372036709551616
nanoseconds, not 9223372037 seconds: the int64 product of toDuration wraps. -/
theorem GetRecords_ttl_wraps :
    "example.com" ≠ ""
      ∧ hugeTTLClient.Whoami 0 = (.ok 1010, 1)
      ∧ hugeTTLClient.ListRecords (FormatInt 1010) "example.com" 1
          = (.ok [⟨7, "A", "www", "192.0.2.1", 9223372037⟩], 2)
      ∧ (GetRecords hugeTTLClient "example.com" 0).outcome
          = .returned [⟨"", "A", "www", "192.0.2.1", -9223372036709551616⟩] none
      ∧ (-9223372036709551616 : Int) ≠ 9223372037 * Second := by
  refine ⟨by decide, rfl, rfl, ?_, by decide⟩
  have h : toDuration 9223372037 = -9223372036709551616 := by decide
  simp [GetRecords, hugeTTLClient, echoClient, h]

/-- C2, amended: for a non-empty zone, with identity resolution and the list
call succeeding with the response data, GetRecords returns without error a
slice as long as data whose i-th record has the Type, Name and Content (as
Value) of the i-th entry of data, in the same order, and as TTL the int64
product toDuration of that entry's TTL; that TTL is the entry's TTL in seconds
exactly when the entry's count of nanoseconds fits the int64 of a
time.Duration. -/
theorem GetRecords_maps_response {σ : Type} (c : Client σ) (zone : String) (s s1 s2 : σ)
    (id : Int) (data : List ZoneRecord)
    (hz : zone ≠ "") (hw : c.Whoami s = (.ok id, s1))
    (hl : c.ListRecords (FormatInt id) zone s1 = (.ok data, s2)) :
    ∃ recs : List Record,
      (GetRecords c zone s).outcome = .returned recs none
        ∧ recs.length = data.length
        ∧ ∀ (i : Nat) (r : Record) (e : ZoneRecord), recs[i]? = some r → data[i]? = some e →
            r.«Type» = e.«Type» ∧ r.Name = e.Name ∧ r.Value = e.Content
              ∧ r.TTL = toDuration e.TTL
              ∧ (r.TTL = e.TTL * Second ↔ isInt64 (e.TTL * Second)) := by
  refine ⟨data.map recordOf, ?_, by simp, ?_⟩
  · simp [GetRecords, hz, hw, hl, foldl_append_singleton, recordOf]
  · intro i r e hr he
    rw [List.getElem?_map, he] at hr
    simp only [Option.map_some', Option.some.injEq] at hr
    subst hr
    refine ⟨rfl, rfl, rfl, rfl, ?_⟩
    simp only [recordOf, toDuration]
    constructor
    · intro h
      unfold wrapInt64 at h
      unfold isInt64
      omega
    · intro h
      exact wrapInt64_of_isInt64 _ h

/-- C2, amended, at the stub twoRecordClient, whose list response has two
different entries, and the zone example.com. -/
theorem GetRecords_maps_response_witness :
    ∃ recs : List Record,
      (GetRecords twoRecordClient "example.com" 0).outcome = .returned recs none
        ∧ recs.length
            = [(⟨7, "A", "www", "192.0.2.1", 3600⟩ : ZoneRecord),
                ⟨8, "TXT", "foo", "bar", 300⟩].length
        ∧ ∀ (i : Nat) (r : Record) (e : ZoneRecord), recs[i]? = some r →
            [(⟨7, "A", "www", "192.0.2.1", 3600⟩ : ZoneRecord),
                ⟨8, "TXT", "foo", "bar", 300⟩][i]? = some e →
            r.«Type» = e.«Type» ∧ r.Name = e.Name ∧ r.Value = e.Content
              ∧ r.TTL = toDuration e.TTL
              ∧ (r.TTL = e.TTL * Second ↔ isInt64 (e.TTL * Second)) :=
  GetRecords_maps_response twoRecordClient "example.com" 0 1 2 1010
    [⟨7, "A", "www", "192.0.2.1", 3600⟩, ⟨8, "TXT", "foo", "bar", 300⟩] (by decide) rfl rfl

/-- C3: for a non-empty zone, once identity is resolved to the account id in
the stub state s1, AppendRecords has called Whoami once, first, and then:
if the stub answers the CreateRecord calls for all N input records
successfully, with the responses datas, the trace continues with exactly those
N calls in input order and the N records translated from datas are returned
with no error; if the stub answers the calls for the K - 1 records of pre
successfully, with the responses datas, and fails the call for the next record
r, the K-th, the trace continues with exactly those K calls, and the K - 1
records translated from datas are returned together with the error of the
failing call.  The stub is left in the state after the last call issued. -/
theorem AppendRecords_sequential {σ : Type} (c : Client σ) (zone : String)
    (records : List Record) (s s1 : σ) (id : Int)
    (hz : zone ≠ "") (hw : c.Whoami s = (.ok id, s1)) :
    (∀ (datas : List ZoneRecord) (s2 : σ),
        stubCreates c (FormatInt id) zone records s1 = some (datas, s2) →
        (AppendRecords c zone records s).outcome = .returned (datas.map recordOf) none
          ∧ datas.length = records.length
          ∧ (AppendRecords c zone records s).trace
              = whoamiEvent id
                  :: List.zipWith (createEvent (FormatInt id) zone) records
                      (datas.map Except.ok)
          ∧ (AppendRecords c zone records s).trace.length = 1 + records.length
          ∧ (AppendRecords c zone records s).final = s2)
    ∧ (∀ (pre : List Record) (r : Record) (post : List Record) (datas : List ZoneRecord)
        (s2 s3 : σ) (err : Error),
        records = pre ++ r :: post →
        stubCreates c (FormatInt id) zone pre s1 = some (datas, s2) →
        c.CreateRecord (FormatInt id) zone (requestOf r) s2 = (.error err, s3) →
        (AppendRecords c zone records s).outcome = .returned (datas.map recordOf) (some err)
          ∧ datas.length = pre.length
          ∧ (AppendRecords c zone records s).trace
              = whoamiEvent id
                  :: (List.zipWith (createEvent (FormatInt id) zone) pre (datas.map Except.ok)
                      ++ [createEvent (FormatInt id) zone r (.error err)])
          ∧ (AppendRecords c zone records s).trace.length = 1 + (pre.length + 1)
          ∧ (AppendRecords c zone records s).final = s3) := by
  have hrun : AppendRecords c zone records s
      = appendLoop c (FormatInt id) zone records [] [whoamiEvent id] s1 := by
    simp [AppendRecords, hz, hw, whoamiEvent]
  constructor
  · intro datas s2 h
    have hlen := stubCreates_length c (FormatInt id) zone records s1 s2 datas h
    have h1 := appendLoop_run c (FormatInt id) zone [] records [] [whoamiEvent id] s1 s2 datas h
    rw [List.append_nil] at h1
    rw [hrun, h1]
    simp [appendLoop, hlen]
    omega
  · intro pre r post datas s2 s3 err hrec h hc
    have hlen := stubCreates_length c (FormatInt id) zone pre s1 s2 datas h
    have h1 := appendLoop_run c (FormatInt id) zone (r :: post) pre [] [whoamiEvent id]
      s1 s2 datas h
    simp only [requestOf] at hc
    rw [hrun, hrec, h1]
    simp [appendLoop, hc, hlen, createEvent, requestOf]
    omega

/-- C3 at the zone example.com: against echoClient both creates of two records
succeed; against flakyClient the second create fails and the one record of the
first response is returned with the error. -/
theorem AppendRecords_sequential_witness :
    ((AppendRecords echoClient "example.com" [txtRecord, sevenRecord] 0).outcome
        = .returned ([(⟨42, "TXT", "foo", "bar", 300⟩ : ZoneRecord),
            ⟨42, "A", "www", "192.0.2.1", 3600⟩].map recordOf) none
      ∧ [(⟨42, "TXT", "foo", "bar", 300⟩ : ZoneRecord),
            ⟨42, "A", "www", "192.0.2.1", 3600⟩].length = [txtRecord, sevenRecord].length
      ∧ (AppendRecords echoClient "example.com" [txtRecord, sevenRecord] 0).trace
          = whoamiEvent 1010
              :: List.zipWith (createEvent (FormatInt 1010) "example.com")
                  [txtRecord, sevenRecord]
                  ([(⟨42, "TXT", "foo", "bar", 300⟩ : ZoneRecord),
                    ⟨42, "A", "www", "192.0.2.1", 3600⟩].map Except.ok)
      ∧ (AppendRecords echoClient "example.com" [txtRecord, sevenRecord] 0).trace.length
          = 1 + [txtRecord, sevenRecord].length
      ∧ (AppendRecords echoClient "example.com" [txtRecord, sevenRecord] 0).final = 3)
    ∧ ((AppendRecords flakyClient "example.com" [txtRecord, sevenRecord, eightRecord] 0).outcome
        = .returned ([(⟨43, "TXT", "foo", "bar", 300⟩ : ZoneRecord)].map recordOf)
            (some (.client "upstream failure"))
      ∧ [(⟨43, "TXT", "foo", "bar", 300⟩ : ZoneRecord)].length = [txtRecord].length
      ∧ (AppendRecords flakyClient "example.com" [txtRecord, sevenRecord, eightRecord] 0).trace
          = whoamiEvent 1010
              :: (List.zipWith (createEvent (FormatInt 1010) "example.com") [txtRecord]
                    ([(⟨43, "TXT", "foo", "bar", 300⟩ : ZoneRecord)].map Except.ok)
                  ++ [createEvent (FormatInt 1010) "example.com" sevenRecord
                        (.error (.client "upstream failure"))])
      ∧ (AppendRecords flakyClient "example.com"
            [txtRecord, sevenRecord, eightRecord] 0).trace.length = 1 + ([txtRecord].length + 1)
      ∧ (AppendRecords flakyClient "example.com" [txtRecord, sevenRecord, eightRecord] 0).final
          = 3) := by
  have h300 : intOfFloat (Seconds 300000000000) = 300 := by
    rw [intOfFloat_Seconds_whole _ (by decide) (by decide)]
    decide
  have h3600 : intOfFloat (Seconds 3600000000000) = 3600 := by
    rw [intOfFloat_Seconds_whole _ (by decide) (by decide)]
    decide
  exact ⟨(AppendRecords_sequential echoClient "example.com" [txtRecord, sevenRecord] 0 1 1010
      (by decide) rfl).1 _ 3
        (by simp [stubCreates, echoClient, requestOf, txtRecord, sevenRecord, h300, h3600]),
    (AppendRecords_sequential flakyClient "example.com" [txtRecord, sevenRecord, eightRecord]
      0 1 1010 (by decide) rfl).2 [txtRecord] sevenRecord [eightRecord] _ 2 3 _ rfl
        (by simp [stubCreates, flakyClient, requestOf, txtRecord, h300])
        (by simp [flakyClient])⟩


/-- C5: for a non-empty zone, with identity resolution succeeding to the
account id in the stub state s1, DeleteRecords behaves as follows.  If every
ID of the input parses and the stub answers every delete call successfully,
the input is returned unchanged with no error after the delete calls for the
parsed IDs in input order.  If the records of pre are so deleted and the next
record r has an ID that does not parse, pre is returned with the parse error
after the delete calls for pre only.  If the records of pre are so deleted and
the stub fails the delete call for the parsed ID of the next record r, pre is
returned with the stub's error after the delete calls for pre and the failing
call, and no call follows.  A non-nil error is returned iff such a record r
exists.  In particular a first record whose ID does not parse, as abc, gives
the error, an empty result and no delete call. -/
theorem DeleteRecords_sequential {σ : Type} (c : Client σ) (zone : String)
    (records : List Record) (s s1 : σ) (id : Int)
    (hz : zone ≠ "") (hw : c.Whoami s = (.ok id, s1)) :
    (∀ (ids : List Int) (s2 : σ),
        stubDeletes c (FormatInt id) zone records s1 = some (ids, s2) →
        (DeleteRecords c zone records s).outcome = .returned records none
          ∧ (DeleteRecords c zone records s).trace
              = whoamiEvent id :: ids.map (deleteEvent (FormatInt id) zone none)
          ∧ (DeleteRecords c zone records s).final = s2)
    ∧ (∀ (pre : List Record) (r : Record) (post : List Record) (ids : List Int) (s2 : σ)
        (err : Error),
        records = pre ++ r :: post →
        stubDeletes c (FormatInt id) zone pre s1 = some (ids, s2) →
        Atoi r.ID = .error err →
        (DeleteRecords c zone records s).outcome = .returned pre (some err)
          ∧ (DeleteRecords c zone records s).trace
              = whoamiEvent id :: ids.map (deleteEvent (FormatInt id) zone none)
          ∧ (DeleteRecords c zone records s).final = s2)
    ∧ (∀ (pre : List Record) (r : Record) (post : List Record) (ids : List Int) (s2 s3 : σ)
        (n : Int) (err : Error),
        records = pre ++ r :: post →
        stubDeletes c (FormatInt id) zone pre s1 = some (ids, s2) →
        Atoi r.ID = .ok n →
        c.DeleteRecord (FormatInt id) zone n s2 = (some err, s3) →
        (DeleteRecords c zone records s).outcome = .returned pre (some err)
          ∧ (DeleteRecords c zone records s).trace
              = whoamiEvent id
                  :: (ids.map (deleteEvent (FormatInt id) zone none)
                      ++ [deleteEvent (FormatInt id) zone (some err) n])
          ∧ (DeleteRecords c zone records s).final = s3)
    ∧ ((∃ (recs : List Record) (e : Error),
          (DeleteRecords c zone records s).outcome = .returned recs (some e))
        ↔ ∃ (pre : List Record) (r : Record) (post : List Record) (ids : List Int) (s2 : σ),
            records = pre ++ r :: post
              ∧ stubDeletes c (FormatInt id) zone pre s1 = some (ids, s2)
              ∧ ((∃ err, Atoi r.ID = .error err)
                  ∨ ∃ (n : Int) (err : Error) (s3 : σ), Atoi r.ID = .ok n
                      ∧ c.DeleteRecord (FormatInt id) zone n s2 = (some err, s3)))
    ∧ (∀ (r : Record) (rest : List Record) (err : Error),
        records = r :: rest → Atoi r.ID = .error err →
          (DeleteRecords c zone records s).outcome = .returned [] (some err)
            ∧ (DeleteRecords c zone records s).trace = [whoamiEvent id])
    ∧ Atoi "abc" = .error (.numError "Atoi" "abc" .ErrSyntax) := by
  have hrun : DeleteRecords c zone records s
      = deleteLoop c (FormatInt id) zone records [] [whoamiEvent id] s1 := by
    simp [DeleteRecords, hz, hw, whoamiEvent]
  have hall : ∀ (ids : List Int) (s2 : σ),
      stubDeletes c (FormatInt id) zone records s1 = some (ids, s2) →
      (DeleteRecords c zone records s).outcome = .returned records none
        ∧ (DeleteRecords c zone records s).trace
            = whoamiEvent id :: ids.map (deleteEvent (FormatInt id) zone none)
        ∧ (DeleteRecords c zone records s).final = s2 := by
    intro ids s2 h
    have h1 := deleteLoop_run c (FormatInt id) zone [] records [] [whoamiEvent id] s1 s2 ids h
    rw [List.append_nil] at h1
    rw [hrun, h1]
    simp [deleteLoop]
  have hparse : ∀ (pre : List Record) (r : Record) (post : List Record) (ids : List Int)
      (s2 : σ) (err : Error),
      records = pre ++ r :: post →
      stubDeletes c (FormatInt id) zone pre s1 = some (ids, s2) →
      Atoi r.ID = .error err →
      (DeleteRecords c zone records s).outcome = .returned pre (some err)
        ∧ (DeleteRecords c zone records s).trace
            = whoamiEvent id :: ids.map (deleteEvent (FormatInt id) zone none)
        ∧ (DeleteRecords c zone records s).final = s2 := by
    intro pre r post ids s2 err hrec h hp
    have h1 := deleteLoop_run c (FormatInt id) zone (r :: post) pre [] [whoamiEvent id]
      s1 s2 ids h
    rw [hrun, hrec, h1]
    simp [deleteLoop, hp]
  have hdel : ∀ (pre : List Record) (r : Record) (post : List Record) (ids : List Int)
      (s2 s3 : σ) (n : Int) (err : Error),
      records = pre ++ r :: post →
      stubDeletes c (FormatInt id) zone pre s1 = some (ids, s2) →
      Atoi r.ID = .ok n →
      c.DeleteRecord (FormatInt id) zone n s2 = (some err, s3) →
      (DeleteRecords c zone records s).outcome = .returned pre (some err)
        ∧ (DeleteRecords c zone records s).trace
            = whoamiEvent id
                :: (ids.map (deleteEvent (FormatInt id) zone none)
                    ++ [deleteEvent (FormatInt id) zone (some err) n])
        ∧ (DeleteRecords c zone records s).final = s3 := by
    intro pre r post ids s2 s3 n err hrec h hp hd
    have h1 := deleteLoop_run c (FormatInt id) zone (r :: post) pre [] [whoamiEvent id]
      s1 s2 ids h
    rw [hrun, hrec, h1]
    simp [deleteLoop, hp, hd, deleteEvent]
  refine ⟨hall, hparse, hdel, ?_, ?_, rfl⟩
  · constructor
    · rintro ⟨recs, e, hout⟩
      cases hs : stubDeletes c (FormatInt id) zone records s1 with
      | some p =>
        obtain ⟨ids, s2⟩ := p
        rw [(hall ids s2 hs).1] at hout
        simp at hout
      | none => exact stubDeletes_none c (FormatInt id) zone records s1 hs
    · rintro ⟨pre, r, post, ids, s2, hrec, h, ⟨err, hp⟩ | ⟨n, err, s3, hp, hd⟩⟩
      · exact ⟨pre, err, (hparse pre r post ids s2 err hrec h hp).1⟩
      · exact ⟨pre, err, (hdel pre r post ids s2 s3 n err hrec h hp hd).1⟩
  · intro r rest err hrec hp
    have h := hparse [] r rest [] s1 err (by simpa using hrec) (by simp [stubDeletes]) hp
    exact ⟨h.1, by simpa using h.2.1⟩

/-- C5 at the zone example.com: against echoClient the records 7 and 8 are both
deleted; against echoClient the record 7 is deleted and the ID abc stops the
loop; against flakyClient the delete call for the record 8 fails after the
record 7 was deleted, and the record abc after it is never reached. -/
theorem DeleteRecords_sequential_witness :
    ((DeleteRecords echoClient "example.com" [sevenRecord, eightRecord] 0).outcome
        = .returned [sevenRecord, eightRecord] none
      ∧ (DeleteRecords echoClient "example.com" [sevenRecord, eightRecord] 0).trace
          = whoamiEvent 1010
              :: [(7 : Int), 8].map (deleteEvent (FormatInt 1010) "example.com" none)
      ∧ (DeleteRecords echoClient "example.com" [sevenRecord, eightRecord] 0).final = 3)
    ∧ ((DeleteRecords echoClient "example.com" [sevenRecord, abcRecord, eightRecord] 0).outcome
        = .returned [sevenRecord] (some (.numError "Atoi" "abc" .ErrSyntax))
      ∧ (DeleteRecords echoClient "example.com" [sevenRecord, abcRecord, eightRecord] 0).trace
          = whoamiEvent 1010
              :: [(7 : Int)].map (deleteEvent (FormatInt 1010) "example.com" none)
      ∧ (DeleteRecords echoClient "example.com" [sevenRecord, abcRecord, eightRecord] 0).final
          = 2)
    ∧ ((DeleteRecords flakyClient "example.com" [sevenRecord, eightRecord, abcRecord] 0).outcome
        = .returned [sevenRecord] (some (.client "upstream failure"))
      ∧ (DeleteRecords flakyClient "example.com" [sevenRecord, eightRecord, abcRecord] 0).trace
          = whoamiEvent 1010
              :: ([(7 : Int)].map (deleteEvent (FormatInt 1010) "example.com" none)
                  ++ [deleteEvent (FormatInt 1010) "example.com"
                        (some (.client "upstream failure")) 8])
      ∧ (DeleteRecords flakyClient "example.com" [sevenRecord, eightRecord, abcRecord] 0).final
          = 3) :=
  ⟨(DeleteRecords_sequential echoClient "example.com" [sevenRecord, eightRecord] 0 1 1010
      (by decide) rfl).1 [7, 8] 3 rfl,
    (DeleteRecords_sequential echoClient "example.com" [sevenRecord, abcRecord, eightRecord]
      0 1 1010 (by decide) rfl).2.1 [sevenRecord] abcRecord [eightRecord] [7] 2
        (.numError "Atoi" "abc" .ErrSyntax) rfl rfl rfl,
    (DeleteRecords_sequential flakyClient "example.com" [sevenRecord, eightRecord, abcRecord]
      0 1 1010 (by decide) rfl).2.2.1 [sevenRecord] eightRecord [abcRecord] [7] 2 3 8
        (.client "upstream failure") rfl rfl rfl rfl⟩

/-- C6 as stated fails: with the zone example.com and the single record of ID
abc, whose ID does not parse, DeleteRecords has called Whoami before it
returns the error; and with the records of IDs 7 and abc it has also issued
the delete call for the record 7. -/
theorem DeleteRecords_malformed_id_contacts_service :
    "example.com" ≠ ""
      ∧ Atoi abcRecord.ID = .error (.numError "Atoi" "abc" .ErrSyntax)
      ∧ (DeleteRecords echoClient "example.com" [abcRecord] 0).outcome
          = .returned [] (some (.numError "Atoi" "abc" .ErrSyntax))
      ∧ (DeleteRecords echoClient "example.com" [abcRecord] 0).trace = [whoamiEvent 1010]
      ∧ (DeleteRecords echoClient "example.com" [abcRecord] 0).trace ≠ []
      ∧ (DeleteRecords echoClient "example.com" [sevenRecord, abcRecord] 0).outcome
          = .returned [sevenRecord] (some (.numError "Atoi" "abc" .ErrSyntax))
      ∧ (DeleteRecords echoClient "example.com" [sevenRecord, abcRecord] 0).trace
          = [whoamiEvent 1010, deleteEvent "1010" "example.com" none 7] := by
  refine ⟨by decide, rfl, rfl, rfl, ?_, rfl, rfl⟩
  intro h
  have h2 : (DeleteRecords echoClient "example.com" [abcRecord] 0).trace = [whoamiEvent 1010] :=
    rfl
  rw [h2] at h
  exact List.cons_ne_nil _ _ h

/-- C6, amended: only the empty zone is detected before any remote call.  For a
non-empty zone and an input list pre ++ bad :: post whose first record with an
ID that does not parse is bad, with identity resolution succeeding,
DeleteRecords returns a non-nil error together with an initial run of pre,
after exactly one Whoami call followed by delete calls for an initial run of
pre only, in input order with the parsed IDs: no delete call is issued for bad
or for any record of post. -/
theorem DeleteRecords_malformed_id_after_identity {σ : Type} (c : Client σ) (zone : String)
    (pre : List Record) (bad : Record) (post : List Record) (ids : List Int) (err : Error)
    (s s1 : σ) (id : Int)
    (hz : zone ≠ "") (hw : c.Whoami s = (.ok id, s1))
    (hpre : pre.map (fun r => Atoi r.ID) = ids.map Except.ok)
    (hbad : Atoi bad.ID = .error err) :
    (∃ (e : Error) (k m : Nat), k ≤ m ∧ m ≤ ids.length
      ∧ (DeleteRecords c zone (pre ++ bad :: post) s).outcome = .returned (pre.take k) (some e)
      ∧ (DeleteRecords c zone (pre ++ bad :: post) s).trace.map Event.call
          = Call.Whoami :: (ids.take m).map (fun n => Call.DeleteRecord (FormatInt id) zone n))
    ∧ (DeleteRecords c "" (pre ++ bad :: post) s).outcome = .returned [] (some zoneEmptyError)
    ∧ (DeleteRecords c "" (pre ++ bad :: post) s).trace = [] := by
  have hrun : DeleteRecords c zone (pre ++ bad :: post) s
      = deleteLoop c (FormatInt id) zone (pre ++ bad :: post) [] [whoamiEvent id] s1 := by
    simp [DeleteRecords, hz, hw, whoamiEvent]
  refine ⟨?_, by simp [DeleteRecords], by simp [DeleteRecords]⟩
  obtain ⟨e, k, m, hkm, hm, h1, h2⟩ :=
    deleteLoop_malformed c (FormatInt id) zone bad post err hbad pre ids [] [whoamiEvent id] s1 hpre
  exact ⟨e, k, m, hkm, hm, by rw [hrun, h1]; simp, by rw [hrun, h2]; simp [whoamiEvent]⟩

/-- C6, amended, at the stub echoClient, the zone example.com and the records
with the IDs 7 and abc. -/
theorem DeleteRecords_malformed_id_after_identity_witness :
    (∃ (e : Error) (k m : Nat), k ≤ m ∧ m ≤ [(7 : Int)].length
      ∧ (DeleteRecords echoClient "example.com" ([sevenRecord] ++ abcRecord :: []) 0).outcome
          = .returned ([sevenRecord].take k) (some e)
      ∧ (DeleteRecords echoClient "example.com"
            ([sevenRecord] ++ abcRecord :: []) 0).trace.map Event.call
          = Call.Whoami
              :: ([(7 : Int)].take m).map
                  (fun n => Call.DeleteRecord (FormatInt 1010) "example.com" n))
    ∧ (DeleteRecords echoClient "" ([sevenRecord] ++ abcRecord :: []) 0).outcome
        = .returned [] (some zoneEmptyError)
    ∧ (DeleteRecords echoClient "" ([sevenRecord] ++ abcRecord :: []) 0).trace = [] :=
  DeleteRecords_malformed_id_after_identity echoClient "example.com" [sevenRecord] abcRecord []
    [7] (.numError "Atoi" "abc" .ErrSyntax) 0 1 1010 (by decide) rfl rfl rfl

/-- C7: a record whose TTL is a valid time.Duration of a whole number of
seconds, translated to the request form and back from the echoed response, is
the original record in Type, Name, Value and TTL (the ID is left empty); hence
AppendRecords, against a stub that echoes every request under some record ID,
returns without error the input records with exactly their TTLs. -/
theorem AppendRecords_echo_round_trip {σ : Type} (c : Client σ) (zone : String)
    (records : List Record) (s s1 : σ) (id : Int)
    (hz : zone ≠ "") (hw : c.Whoami s = (.ok id, s1))
    (hecho : ∀ (a z : String) (req : ZoneRecordRequest) (t : σ), ∃ (n : Int) (t1 : σ),
      c.CreateRecord a z req t = (.ok ⟨n, req.«Type», req.Name, req.Content, req.TTL⟩, t1))
    (httl : ∀ r ∈ records, isInt64 r.TTL ∧ r.TTL % Second = 0) :
    (∀ r ∈ records, ∀ n : Int,
        recordOf ⟨n, (requestOf r).«Type», (requestOf r).Name, (requestOf r).Content,
          (requestOf r).TTL⟩ = { r with ID := "" }
          ∧ toDuration (intOfFloat (Seconds r.TTL)) = r.TTL)
    ∧ (AppendRecords c zone records s).outcome
        = .returned (records.map (fun r => { r with ID := "" })) none := by
  constructor
  · intro r hr n
    have h := toDuration_Seconds_whole r.TTL (httl r hr).1 (httl r hr).2
    exact ⟨by simp [recordOf, requestOf, h], h⟩
  · have hrun : AppendRecords c zone records s
        = appendLoop c (FormatInt id) zone records [] [whoamiEvent id] s1 := by
      simp [AppendRecords, hz, hw, whoamiEvent]
    rw [hrun, appendLoop_echo c (FormatInt id) zone hecho records [] _ s1 httl]
    simp

/-- C7 at the record TXT foo bar with the TTL 300 s, the stub echoClient and
the zone example.com. -/
theorem AppendRecords_echo_round_trip_witness :
    (∀ r ∈ [txtRecord], ∀ n : Int,
        recordOf ⟨n, (requestOf r).«Type», (requestOf r).Name, (requestOf r).Content,
          (requestOf r).TTL⟩ = { r with ID := "" }
          ∧ toDuration (intOfFloat (Seconds r.TTL)) = r.TTL)
    ∧ (AppendRecords echoClient "example.com" [txtRecord] 0).outcome
        = .returned ([txtRecord].map (fun r => { r with ID := "" })) none :=
  AppendRecords_echo_round_trip echoClient "example.com" [txtRecord] 0 1 1010 (by decide) rfl
    (fun _ _ _ t => ⟨42, t + 1, rfl⟩)
    (by
      intro r hr
      rw [List.mem_singleton.1 hr]
      decide)

/-- C9: for every zone, every record list, every stub state and every response
function f, SetRecords against a client whose CreateOrUpdateRecord is f ends as
AppendRecords does against a client whose CreateRecord is f (identity
resolution being the same for both): the same outcome, that is the same
records and the same error, the same final stub state, and the same trace
once each CreateRecord entry is read as the CreateOrUpdateRecord entry with the
same account, zone, request and reply; and SetRecords issues no CreateRecord
call. -/
theorem SetRecords_as_AppendRecords {σ : Type} (c1 c2 : Client σ)
    (f : String → String → ZoneRecordRequest → σ → Except Error ZoneRecord × σ)
    (zone : String) (records : List Record) (s : σ)
    (hw : c2.Whoami = c1.Whoami)
    (h1 : c1.CreateRecord = f) (h2 : c2.CreateOrUpdateRecord = f) :
    (SetRecords c2 zone records s).outcome = (AppendRecords c1 zone records s).outcome
      ∧ (SetRecords c2 zone records s).final = (AppendRecords c1 zone records s).final
      ∧ (SetRecords c2 zone records s).trace
          = (AppendRecords c1 zone records s).trace.map asCreateOrUpdate
      ∧ ∀ ev ∈ (SetRecords c2 zone records s).trace, ev.call.isCreate = false := by
  have hf : c2.CreateOrUpdateRecord = c1.CreateRecord := by rw [h1, h2]
  by_cases hz : zone = ""
  · simp [SetRecords, AppendRecords, hz]
  · rcases hwho : c1.Whoami s with ⟨res, s1⟩
    cases res with
    | error err =>
      simp [SetRecords, AppendRecords, hz, hw, hwho, asCreateOrUpdate, Call.isCreate]
    | ok id =>
      have hS : SetRecords c2 zone records s
          = setLoop c2 (FormatInt id) zone records [] ([whoamiEvent id].map asCreateOrUpdate) s1 := by
        simp [SetRecords, hz, hw, hwho, whoamiEvent, asCreateOrUpdate]
      have hA : AppendRecords c1 zone records s
          = appendLoop c1 (FormatInt id) zone records [] [whoamiEvent id] s1 := by
        simp [AppendRecords, hz, hwho, whoamiEvent]
      obtain ⟨e1, e2, e3⟩ :=
        setLoop_eq_appendLoop c1 c2 (FormatInt id) zone hf records [] [whoamiEvent id] s1
      rw [hS, hA]
      refine ⟨e1, e2, e3, ?_⟩
      apply setLoop_no_create
      intro ev hev
      simp [whoamiEvent, asCreateOrUpdate] at hev
      subst hev
      rfl

/-- C9 at the stub echoClient on both sides, the zone example.com and one
record. -/
theorem SetRecords_as_AppendRecords_witness :
    (SetRecords echoClient "example.com" [txtRecord] 0).outcome
        = (AppendRecords echoClient "example.com" [txtRecord] 0).outcome
      ∧ (SetRecords echoClient "example.com" [txtRecord] 0).final
        = (AppendRecords echoClient "example.com" [txtRecord] 0).final
      ∧ (SetRecords echoClient "example.com" [txtRecord] 0).trace
          = (AppendRecords echoClient "example.com" [txtRecord] 0).trace.map asCreateOrUpdate
      ∧ ∀ ev ∈ (SetRecords echoClient "example.com" [txtRecord] 0).trace,
          ev.call.isCreate = false :=
  SetRecords_as_AppendRecords echoClient echoClient echoClient.CreateRecord "example.com"
    [txtRecord] 0 rfl rfl rfl

/-- C10: every record GetRecords returns has an empty ID, whatever the stub
answers; so for a non-empty zone and a non-empty result R of GetRecords,
DeleteRecords on R, its identity resolution succeeding, returns the syntax
error of parsing the empty string together with an empty result, and its
trace is the one Whoami call: no delete call is issued. -/
theorem GetRecords_result_not_deletable {σ : Type} (c : Client σ) (zone : String) (s : σ)
    (R : List Record) (err : Option Error)
    (hR : (GetRecords c zone s).outcome = .returned R err) :
    (∀ r ∈ R, r.ID = "")
      ∧ (zone ≠ "" → R ≠ [] → ∀ (t t1 : σ) (id : Int), c.Whoami t = (.ok id, t1) →
          (DeleteRecords c zone R t).outcome
              = .returned [] (some (.numError "Atoi" "" .ErrSyntax))
            ∧ (DeleteRecords c zone R t).trace = [whoamiEvent id]
            ∧ ∀ ev ∈ (DeleteRecords c zone R t).trace, ev.call.isDelete = false) := by
  have hid : ∀ r ∈ R, r.ID = "" := by
    by_cases hz : zone = ""
    · simp [GetRecords, hz] at hR
      intro r hr
      rw [hR.1] at hr
      simp at hr
    · rcases hwho : c.Whoami s with ⟨res, s1⟩
      cases res with
      | error e => simp [GetRecords, hz, hwho] at hR
      | ok id =>
        rcases hl : c.ListRecords (FormatInt id) zone s1 with ⟨res2, s2⟩
        cases res2 with
        | error e =>
          simp [GetRecords, hz, hwho, hl] at hR
          intro r hr
          rw [hR.1] at hr
          simp at hr
        | ok data =>
          simp [GetRecords, hz, hwho, hl, foldl_append_singleton] at hR
          intro r hr
          rw [← hR.1] at hr
          simp only [List.mem_map] at hr
          obtain ⟨e, _, rfl⟩ := hr
          rfl
  refine ⟨hid, ?_⟩
  intro hz hne t t1 id hw
  cases R with
  | nil => exact absurd rfl hne
  | cons r rest =>
    have hr : r.ID = "" := hid r (List.mem_cons_self _ _)
    have hp : Atoi r.ID = .error (.numError "Atoi" "" .ErrSyntax) := by rw [hr]; rfl
    have hrun : DeleteRecords c zone (r :: rest) t
        = ⟨.returned [] (some (.numError "Atoi" "" .ErrSyntax)), [whoamiEvent id], t1⟩ := by
      simp [DeleteRecords, hz, hw, deleteLoop, hp, whoamiEvent]
    rw [hrun]
    refine ⟨rfl, rfl, ?_⟩
    intro ev hev
    simp at hev
    subst hev
    rfl

/-- C10 at the stub echoClient and the zone example.com: the one record
GetRecords returns has an empty ID and DeleteRecords does not delete it. -/
theorem GetRecords_result_not_deletable_witness :
    (GetRecords echoClient "example.com" 0).outcome
        = .returned [recordOf ⟨7, "A", "www", "192.0.2.1", 3600⟩] none
      ∧ (∀ r ∈ [recordOf ⟨7, "A", "www", "192.0.2.1", 3600⟩], r.ID = "")
      ∧ (DeleteRecords echoClient "example.com"
            [recordOf ⟨7, "A", "www", "192.0.2.1", 3600⟩] 2).outcome
          = .returned [] (some (.numError "Atoi" "" .ErrSyntax))
      ∧ (DeleteRecords echoClient "example.com"
            [recordOf ⟨7, "A", "www", "192.0.2.1", 3600⟩] 2).trace = [whoamiEvent 1010]
      ∧ ∀ ev ∈ (DeleteRecords echoClient "example.com"
            [recordOf ⟨7, "A", "www", "192.0.2.1", 3600⟩] 2).trace, ev.call.isDelete = false :=
  ⟨rfl,
    (GetRecords_result_not_deletable echoClient "example.com" 0
      [recordOf ⟨7, "A", "www", "192.0.2.1", 3600⟩] none rfl).1,
    (GetRecords_result_not_deletable echoClient "example.com" 0
      [recordOf ⟨7, "A", "www", "192.0.2.1", 3600⟩] none rfl).2
      (by decide) (List.cons_ne_nil _ _) 2 3 1010 rfl⟩

/-- C4 fails on the code: AppendRecords against the stub echoClient, which
creates the record under the service-assigned ID 42, returns the record with
the Type, Name, Value and TTL of the response but with an empty ID, not the
ID 42 of the response. -/
theorem AppendRecords_drops_assigned_id :
    (AppendRecords echoClient "example.com" [txtRecord] 0).trace.map Event.reply
        = [.account (.ok 1010), .record (.ok ⟨42, "TXT", "foo", "bar", 300⟩)]
      ∧ (AppendRecords echoClient "example.com" [txtRecord] 0).outcome
        = .returned [⟨"", "TXT", "foo", "bar", 300000000000⟩] none
      ∧ FormatInt 42 = "42" ∧ ("" : String) ≠ FormatInt 42 := by
  have h : intOfFloat (Seconds 300000000000) = 300 := by
    rw [intOfFloat_Seconds_whole _ (by decide) (by decide)]
    decide
  refine ⟨?_, ?_, rfl, by decide⟩
  · simp [AppendRecords, appendLoop, echoClient, txtRecord, h]
  · simp [AppendRecords, appendLoop, echoClient, txtRecord, h]
    decide

/-- C8 fails on the code: against the stub noIdentityClient, whose Whoami call
fails, each of the four operations called with the zone example.com ends in
os.Exit(1) after the one Whoami call; none returns an error to its caller. -/
theorem whoami_failure_exits_process :
    (GetRecords noIdentityClient "example.com" 0).outcome
        = .exited (.client "authentication failed") 1
      ∧ (AppendRecords noIdentityClient "example.com" [txtRecord] 0).outcome
        = .exited (.client "authentication failed") 1
      ∧ (SetRecords noIdentityClient "example.com" [txtRecord] 0).outcome
        = .exited (.client "authentication failed") 1
      ∧ (DeleteRecords noIdentityClient "example.com" [sevenRecord] 0).outcome
        = .exited (.client "authentication failed") 1
      ∧ (GetRecords noIdentityClient "example.com" 0).trace.map Event.call = [.Whoami]
      ∧ (AppendRecords noIdentityClient "example.com" [txtRecord] 0).trace.map Event.call
        = [.Whoami]
      ∧ (SetRecords noIdentityClient "example.com" [txtRecord] 0).trace.map Event.call
        = [.Whoami]
      ∧ (DeleteRecords noIdentityClient "example.com" [sevenRecord] 0).trace.map Event.call
        = [.Whoami] :=
  ⟨rfl, rfl, rfl, rfl, rfl, rfl, rfl, rfl⟩

end Libdnsdnsimple
